import Mathlib

/-!
Verification of the contact-form request pipeline in
netlify/functions/send-email.mjs (the refactored module version, i.e. the
second document in that file, whose handler is at its end).

Modelling conventions (shallow embedding):
* JavaScript runtime values that the handler inspects only for truthiness are
  modelled by the inductive JSVal; JS truthiness is JSVal.truthy.
* Environment variables are Option String; JS falsiness of an env var means
  absent or the empty string (truthyOpt).
* JSON response data is kept as a structured value (Json); the source calls
  JSON.stringify on it, which is injective on these values, so equalities of
  response bodies are stated on the structured data; where a claim concerns
  the raw HTTP body itself, JSON.stringify is modelled by stringify below.
* Date.now() is passed in explicitly as an integer count of milliseconds.
* The module-level Map used by the rate limiter is modelled as a total
  function from client id to timestamp list (Map.get(ip) || [] makes the
  default the empty list); mutation becomes explicit state passing.
* The outcomes of the three network-bound collaborators (the reCAPTCHA
  siteverify call, transporter.verify, the two transporter.sendMail calls)
  are supplied by a World record; every function that can perform such a
  call also returns the list of effects it performed, in order, so that
  claims of the form "stage X is never invoked" are statable.
* JS exceptions are modelled by Except String; the code only ever throws
  Error values and only ever reads error.message, so a String carries the
  message.
-/

namespace SendEmail

/-- JavaScript runtime values, to the extent the handler inspects them. -/
inductive JSVal where
  | undef
  | null
  | bool (b : Bool)
  | num (q : ℚ)
  | str (s : String)
  deriving DecidableEq, Repr

/-- JavaScript truthiness of a value (no NaN in the model; the handler never
produces one). -/
def JSVal.truthy : JSVal → Bool
  | .undef => false
  | .null => false
  | .bool b => b
  | .num q => q != 0
  | .str s => s != ""

/-- Truthiness of an optional string, as used for environment variables:
falsy when unset or the empty string. -/
def truthyOpt : Option String → Bool
  | none => false
  | some s => s != ""

/-- JSON data values appearing in responses of this function. -/
inductive Json where
  | str (s : String)
  | num (q : ℚ)
  | bool (b : Bool)
  | obj (fields : List (String × Json))

mutual

/-- JSON.stringify on these values.  None of the strings the handler ever
serialises contains a character JSON.stringify would escape, so plain
quoting is faithful here. -/
def stringify : Json → String
  | Json.str s => "\"" ++ s ++ "\""
  | Json.num q => toString q
  | Json.bool b => cond b "true" "false"
  | Json.obj fields => "\x7b" ++ stringifyFields fields ++ "\x7d"

/-- Object fields are joined with commas and keyed with quoted names and a
colon, as JSON.stringify does. -/
def stringifyFields : List (String × Json) → String
  | [] => ""
  | [(key, value)] => "\"" ++ key ++ "\":" ++ stringify value
  | (key, value) :: rest =>
    "\"" ++ key ++ "\":" ++ stringify value ++ "," ++ stringifyFields rest

end

/-- An HTTP-shaped response: statusCode, headers, and the response data
(the source serialises the data with JSON.stringify into the body). -/
structure Response where
  statusCode : ℕ
  headers : List (String × String)
  body : Json

/-- getCorsHeaders from the source. -/
def getCorsHeaders : List (String × String) :=
  [("Access-Control-Allow-Origin", "*"),
   ("Access-Control-Allow-Headers", "Content-Type"),
   ("Access-Control-Allow-Methods", "POST, OPTIONS")]

/-- buildResponse from the source: spreads CORS headers then extra headers. -/
def buildResponse (statusCode : ℕ) (data : Json)
    (extraHeaders : List (String × String)) : Response :=
  ⟨statusCode, getCorsHeaders ++ extraHeaders, data⟩

/-- The details field of buildErrorResponse: the JS spread
... (details and \x7b details \x7d) adds the key only when details is truthy
(a nonempty string). -/
def detailsFields : Option String → List (String × Json)
  | none => []
  | some d => if d = "" then [] else [("details", Json.str d)]

/-- buildErrorResponse from the source. -/
def buildErrorResponse (statusCode : ℕ) (error : String)
    (details : Option String) : Response :=
  buildResponse statusCode
    (Json.obj (("error", Json.str error) :: detailsFields details)) []

/-- buildSuccessResponse from the source. -/
def buildSuccessResponse (data : Json) : Response :=
  buildResponse 200 data []

/-- RATE_LIMIT_WINDOW = 60 * 60 * 1000 ms. -/
def RATE_LIMIT_WINDOW : ℤ := 60 * 60 * 1000

/-- MAX_REQUESTS_PER_WINDOW = 5. -/
def MAX_REQUESTS_PER_WINDOW : ℕ := 5

/-- The rateLimitStore Map, as a total function (Map.get(ip) || [] gives
absent keys the empty list). -/
abbrev Store := String → List ℤ

/-- cleanOldRequests from the source. -/
def cleanOldRequests (requests : List ℤ) (now : ℤ) : List ℤ :=
  requests.filter (fun timestamp => decide (now - timestamp < RATE_LIMIT_WINDOW))

/-- isRateLimitExceeded from the source. -/
def isRateLimitExceeded (recentRequests : List ℤ) : Bool :=
  decide (MAX_REQUESTS_PER_WINDOW ≤ recentRequests.length)

/-- updateRateLimitStore from the source: push now, store under ip. -/
def updateRateLimitStore (store : Store) (ip : String)
    (recentRequests : List ℤ) (now : ℤ) : Store :=
  fun k => if k = ip then recentRequests ++ [now] else store k

/-- Result record of checkRateLimit; resetTime is kept in epoch
milliseconds (the source wraps it in new Date). -/
structure RateLimitResult where
  allowed : Bool
  remaining : ℤ
  resetTime : ℤ
  deriving DecidableEq, Repr

/-- checkRateLimit from the source.  On rejection the store is left
unmodified; on admission recentRequests.push(now) happens before the
remaining count is computed, so remaining uses the updated length. -/
def checkRateLimit (store : Store) (ip : String) (now : ℤ) :
    RateLimitResult × Store :=
  let userRequests := store ip
  let recentRequests := cleanOldRequests userRequests now
  if isRateLimitExceeded recentRequests then
    (⟨false, 0, recentRequests.headD 0 + RATE_LIMIT_WINDOW⟩, store)
  else
    (⟨true, (MAX_REQUESTS_PER_WINDOW : ℤ) - ((recentRequests.length : ℤ) + 1),
      now + RATE_LIMIT_WINDOW⟩,
     updateRateLimitStore store ip recentRequests now)

/-- Shape of a verification result: success flag, optional score, optional
error message (the siteverify response carries at least success and
optionally score). -/
structure VerificationResult where
  success : Bool
  score : Option ℚ
  error : Option String
  deriving DecidableEq, Repr

/-- Observable effects of one request, in the order they are performed. -/
inductive Effect where
  | recaptchaApiCall
  | smtpVerify
  | smtpSendNotification
  | smtpSendConfirmation
  deriving DecidableEq, Repr

/-- Outcomes of the external collaborators for the current request:
the reCAPTCHA siteverify call (error = fetch/parse rejection),
transporter.verify, and the two transporter.sendMail calls (ok carries the
messageId). -/
structure World where
  apiOutcome : Except String VerificationResult
  verifyOutcome : Except String Unit
  notificationOutcome : Except String String
  confirmationOutcome : Except String String

/-- Environment variables read by the module. -/
structure Env where
  RECAPTCHA_SECRET_KEY : Option String
  SMTP_HOST : Option String
  SMTP_PORT : Option String
  SMTP_USER : Option String
  SMTP_PASS : Option String
  FROM_EMAIL : Option String
  TO_EMAIL : Option String

/-- process.env lookup restricted to the keys the module reads. -/
def envGet (env : Env) : String → Option String
  | "RECAPTCHA_SECRET_KEY" => env.RECAPTCHA_SECRET_KEY
  | "SMTP_HOST" => env.SMTP_HOST
  | "SMTP_PORT" => env.SMTP_PORT
  | "SMTP_USER" => env.SMTP_USER
  | "SMTP_PASS" => env.SMTP_PASS
  | "FROM_EMAIL" => env.FROM_EMAIL
  | "TO_EMAIL" => env.TO_EMAIL
  | _ => none

/-- The required list inside checkEnvVariables. -/
def requiredEnvKeys : List String :=
  ["SMTP_HOST", "SMTP_PORT", "SMTP_USER", "SMTP_PASS", "FROM_EMAIL", "TO_EMAIL"]

/-- checkEnvVariables from the source: collect falsy required keys and throw
an error naming all of them when any is missing. -/
def checkEnvVariables (env : Env) : Except String Unit :=
  let missing := requiredEnvKeys.filter (fun key => !truthyOpt (envGet env key))
  if 0 < missing.length then
    Except.error ("Missing env vars: " ++ String.intercalate ", " missing)
  else
    Except.ok ()

/-- validateRecaptcha from the source.  No secret: short-circuit success with
score 1.0 and no API call.  Secret but falsy token: failure with
"Token missing" and no API call.  Otherwise one callRecaptchaApi, whose
rejection is caught and turned into a failure result. -/
def validateRecaptcha (env : Env) (w : World) (token : JSVal) :
    VerificationResult × List Effect :=
  if !truthyOpt env.RECAPTCHA_SECRET_KEY then
    (⟨true, some 1, none⟩, [])
  else if !token.truthy then
    (⟨false, none, some "Token missing"⟩, [])
  else
    match w.apiOutcome with
    | Except.ok data => (data, [Effect.recaptchaApiCall])
    | Except.error msg => (⟨false, none, some msg⟩, [Effect.recaptchaApiCall])

/-- handleRecaptchaFailure from the source: the JS test
(!score or score >= 0.5) returns null; note that a score of exactly 0 is
falsy in JS, so it also yields null (no rejection). -/
def handleRecaptchaFailure : Option ℚ → Option Response
  | none => none
  | some score =>
    if score == 0 then none
    else if decide ((1 : ℚ) / 2 ≤ score) then none
    else some (buildErrorResponse 403 "Suspicious activity detected" none)

/-- sendEmail from the source: one transporter is created, then
transporter.verify, then sendMail of the notification, then sendMail of the
confirmation, all awaited in order on the same transporter; the returned
value is the result of the first (notification) send.  Mail composition
(getMailOptions, getConfirmationMailOptions, the HTML templates) is pure
string templating not referenced by any claim and is not modelled beyond
which message each send carries. -/
def sendEmail (w : World) : Except String String × List Effect :=
  match w.verifyOutcome with
  | Except.error e => (Except.error e, [Effect.smtpVerify])
  | Except.ok _ =>
    match w.notificationOutcome with
    | Except.error e =>
      (Except.error e, [Effect.smtpVerify, Effect.smtpSendNotification])
    | Except.ok messageId =>
      match w.confirmationOutcome with
      | Except.error e =>
        (Except.error e,
         [Effect.smtpVerify, Effect.smtpSendNotification,
          Effect.smtpSendConfirmation])
      | Except.ok _ =>
        (Except.ok messageId,
         [Effect.smtpVerify, Effect.smtpSendNotification,
          Effect.smtpSendConfirmation])

/-- The parsed request body; fields absent from the JSON object are the JS
value undefined. -/
structure Body where
  name : JSVal
  email : JSVal
  subject : JSVal
  message : JSVal
  recaptchaToken : JSVal

/-- parseRequestBody from the source: JSON.parse is external, so its outcome
is the input (none = the raw body string is not valid JSON); a parse
failure is rethrown as "Invalid JSON". -/
def parseRequestBody : Option Body → Except String Body
  | none => Except.error "Invalid JSON"
  | some body => Except.ok body

/-- The validated form data returned by validateFormData (the four field
values unchanged). -/
structure FormData where
  name : JSVal
  email : JSVal
  subject : JSVal
  message : JSVal
  deriving DecidableEq, Repr

/-- validateFormData from the source: throws unless all four fields are
truthy. -/
def validateFormData (data : Body) : Except String FormData :=
  if !data.name.truthy || !data.email.truthy
      || !data.subject.truthy || !data.message.truthy then
    Except.error "All fields required"
  else
    Except.ok ⟨data.name, data.email, data.subject, data.message⟩

/-- The two headers getClientIP reads. -/
structure Headers where
  xForwardedFor : Option String
  clientIp : Option String

/-- getClientIP from the source: first truthy of x-forwarded-for,
client-ip, "unknown". -/
def getClientIP (headers : Headers) : String :=
  if truthyOpt headers.xForwardedFor then headers.xForwardedFor.getD ""
  else if truthyOpt headers.clientIp then headers.clientIp.getD ""
  else "unknown"

/-- The Netlify event, with the body already abstracted by parse outcome. -/
structure Event where
  httpMethod : String
  headers : Headers
  body : Option Body

/-- validateHttpMethod from the source: OPTIONS gets buildResponse 200 with
the empty string as data; non-POST gets 405. -/
def validateHttpMethod (method : String) : Option Response :=
  if method = "OPTIONS" then some (buildResponse 200 (Json.str "") [])
  else if method ≠ "POST" then
    some (buildErrorResponse 405 "Method not allowed" none)
  else none

/-- Rendering of a Date in an ISO string; modelled as the decimal epoch
milliseconds (injective, and no claim inspects the ISO format itself). -/
def isoString (t : ℤ) : String := toString t

/-- handleRateLimitExceeded from the source. -/
def handleRateLimitExceeded (resetTime : ℤ) : Response :=
  buildResponse 429
    (Json.obj [("error", Json.str "Too many requests. Please try again later."),
               ("resetTime", Json.str (isoString resetTime))])
    [("X-RateLimit-Limit", toString MAX_REQUESTS_PER_WINDOW),
     ("X-RateLimit-Remaining", "0"),
     ("X-RateLimit-Reset", isoString resetTime)]

/-- The tail of processEmailRequest after the reCAPTCHA checks:
checkEnvVariables, then sendEmail, then the success response. -/
def configCheckAndDeliver (env : Env) (w : World) :
    Except String Response × List Effect :=
  match checkEnvVariables env with
  | Except.error e => (Except.error e, [])
  | Except.ok _ =>
    match sendEmail w with
    | (Except.error e, tr) => (Except.error e, tr)
    | (Except.ok messageId, tr) =>
      (Except.ok (buildSuccessResponse (Json.obj
          [("message", Json.str "Email sent successfully"),
           ("success", Json.bool true),
           ("messageId", Json.str messageId)])), tr)

/-- processEmailRequest from the source: validateRecaptcha, the success
flag check, handleRecaptchaFailure on the score, then checkEnvVariables and
sendEmail (the configCheckAndDeliver tail).  Errors thrown by the tail
propagate (Except.error). -/
def processEmailRequest (env : Env) (w : World) (body : Body)
    (_formData : FormData) : Except String Response × List Effect :=
  let vr := validateRecaptcha env w body.recaptchaToken
  if !vr.1.success then
    (Except.ok (buildErrorResponse 403 "reCAPTCHA validation failed" none), vr.2)
  else
    match handleRecaptchaFailure vr.1.score with
    | some recaptchaError => (Except.ok recaptchaError, vr.2)
    | none =>
      let cd := configCheckAndDeliver env w
      (cd.1, vr.2 ++ cd.2)

/-- handlePostRequest from the source: rate limit (the store mutation
survives even if a later stage throws), then parse, then validate, then
processEmailRequest. -/
def handlePostRequest (env : Env) (w : World) (store : Store) (event : Event)
    (now : ℤ) : (Except String Response × List Effect) × Store :=
  let clientIP := getClientIP event.headers
  let rl := checkRateLimit store clientIP now
  if !rl.1.allowed then
    ((Except.ok (handleRateLimitExceeded rl.1.resetTime), []), rl.2)
  else
    match parseRequestBody event.body with
    | Except.error e => ((Except.error e, []), rl.2)
    | Except.ok body =>
      match validateFormData body with
      | Except.error e => ((Except.error e, []), rl.2)
      | Except.ok formData => (processEmailRequest env w body formData, rl.2)

/-- handler from the source: validateHttpMethod first; any error thrown by
handlePostRequest is caught and turned into a 500 "Internal server error"
response with the error message as details. -/
def handler (env : Env) (w : World) (store : Store) (event : Event)
    (now : ℤ) : Response × List Effect × Store :=
  match validateHttpMethod event.httpMethod with
  | some methodError => (methodError, [], store)
  | none =>
    match handlePostRequest env w store event now with
    | ((Except.ok resp, tr), store2) => (resp, tr, store2)
    | ((Except.error e, tr), store2) =>
      (buildErrorResponse 500 "Internal server error" (some e), tr, store2)

/-- Status of a possibly-thrown pipeline result, for stating status codes. -/
def respStatus : Except String Response → Option ℕ
  | Except.ok r => some r.statusCode
  | Except.error _ => none

/-! Concrete sample inputs used by counterexamples and witnesses. -/

/-- All six mail settings and the verification secret configured. -/
def envFull : Env :=
  ⟨some "sec", some "smtp.example.com", some "465", some "user",
   some "pass", some "from@example.com", some "inbox@example.com"⟩

/-- All six mail settings configured, no verification secret. -/
def envNoSecret : Env :=
  ⟨none, some "smtp.example.com", some "465", some "user",
   some "pass", some "from@example.com", some "inbox@example.com"⟩

/-- No verification secret and SMTP_HOST unset. -/
def envNoHost : Env :=
  ⟨none, none, some "465", some "user",
   some "pass", some "from@example.com", some "inbox@example.com"⟩

/-- Every collaborator succeeds; the API reports success with score 1. -/
def wOk : World :=
  ⟨Except.ok ⟨true, some 1, none⟩, Except.ok (),
   Except.ok "mid-1", Except.ok "mid-2"⟩

/-- The API reports success with score 0. -/
def wScore0 : World :=
  ⟨Except.ok ⟨true, some 0, none⟩, Except.ok (),
   Except.ok "mid-1", Except.ok "mid-2"⟩

/-- The API reports success with score 1/4. -/
def wLowScore : World :=
  ⟨Except.ok ⟨true, some (1 / 4), none⟩, Except.ok (),
   Except.ok "mid-1", Except.ok "mid-2"⟩

/-- Verify and notification send succeed, the confirmation send fails. -/
def wConfFail : World :=
  ⟨Except.ok ⟨true, some 1, none⟩, Except.ok (),
   Except.ok "mid-1", Except.error "relay closed"⟩

/-- An empty rate-limit store. -/
def store0 : Store := fun _ => []

/-- Headers carrying a forwarded-for address. -/
def headersA : Headers := ⟨some "1.2.3.4", none⟩

/-- A fully-filled submission with a token. -/
def bodyOk : Body :=
  ⟨JSVal.str "Ada", JSVal.str "ada@example.com", JSVal.str "Hi",
   JSVal.str "Hello there", JSVal.str "tok"⟩

/-- The form data of bodyOk. -/
def formDataOk : FormData :=
  ⟨JSVal.str "Ada", JSVal.str "ada@example.com", JSVal.str "Hi",
   JSVal.str "Hello there"⟩

/-- A submission whose message field is absent. -/
def bodyMissing : Body :=
  ⟨JSVal.str "Ada", JSVal.str "ada@example.com", JSVal.str "Hi",
   JSVal.undef, JSVal.undef⟩

/-- A submission with whitespace-only and numeric field values. -/
def bodyEdge : Body :=
  ⟨JSVal.str " ", JSVal.num 42, JSVal.str " ", JSVal.num 7, JSVal.undef⟩

/-- A POST event whose raw body is not valid JSON. -/
def evBadJson : Event := ⟨"POST", headersA, none⟩

/-- A POST event with the message field missing. -/
def evMissing : Event := ⟨"POST", headersA, some bodyMissing⟩

/-! Claim theorems. -/

/-- C9 (code behavior at the claimed scenario): an OPTIONS request is
answered with status 200 and exactly the three CORS headers, but the HTTP
body is JSON.stringify("") — the two-character string holding two quote
marks — and NOT the empty body the claim states, because the refactor
routes the OPTIONS reply through buildResponse, which stringifies its data
(the parallel send-email.js implementation returns a literally empty
body). -/
theorem C9_code_behavior :
    (handler envFull wOk store0 ⟨"OPTIONS", headersA, some bodyOk⟩ 0).1.statusCode
      = 200 ∧
    (handler envFull wOk store0 ⟨"OPTIONS", headersA, some bodyOk⟩ 0).1.headers =
      [("Access-Control-Allow-Origin", "*"),
       ("Access-Control-Allow-Headers", "Content-Type"),
       ("Access-Control-Allow-Methods", "POST, OPTIONS")] ∧
    (handler envFull wOk store0 ⟨"OPTIONS", headersA, some bodyOk⟩ 0).2.1 =
      ([] : List Effect) ∧
    stringify
      (handler envFull wOk store0 ⟨"OPTIONS", headersA, some bodyOk⟩ 0).1.body =
      "\"\"" ∧
    stringify
      (handler envFull wOk store0 ⟨"OPTIONS", headersA, some bodyOk⟩ 0).1.body ≠
      "" := by
  have hbody :
      (handler envFull wOk store0 ⟨"OPTIONS", headersA, some bodyOk⟩ 0).1.body =
        Json.str "" := rfl
  have hs : stringify (Json.str "") = "\"\"" := by
    simp only [stringify]
    decide
  refine ⟨rfl, rfl, rfl, ?_, ?_⟩
  · rw [hbody, hs]
  · rw [hbody, hs]
    decide

/-- C10: field validation tests only JavaScript truthiness: whenever all
four fields are truthy, validateFormData succeeds with the values unchanged
(in particular a whitespace-only string and a nonzero number are truthy),
and an admitted POST request with such a body proceeds to
processEmailRequest, the stage that performs verification. -/
theorem C10_truthiness_only (data : Body)
    (h : data.name.truthy = true ∧ data.email.truthy = true ∧
         data.subject.truthy = true ∧ data.message.truthy = true) :
    validateFormData data =
      Except.ok ⟨data.name, data.email, data.subject, data.message⟩ ∧
    (JSVal.str " ").truthy = true ∧ (JSVal.num 42).truthy = true ∧
    ∀ (env : Env) (w : World) (store : Store) (event : Event) (now : ℤ),
      event.httpMethod = "POST" → event.body = some data →
      (checkRateLimit store (getClientIP event.headers) now).1.allowed = true →
      (handlePostRequest env w store event now).1 =
        processEmailRequest env w data
          ⟨data.name, data.email, data.subject, data.message⟩ := by
  obtain ⟨h1, h2, h3, h4⟩ := h
  have hval : validateFormData data =
      Except.ok ⟨data.name, data.email, data.subject, data.message⟩ := by
    simp [validateFormData, h1, h2, h3, h4]
  refine ⟨hval, by decide, by decide, ?_⟩
  intro env w store event now hm hb hallow
  simp [handlePostRequest, hallow, hb, parseRequestBody, hval]

/-- Witness for C10: a whitespace-only string and numeric values pass
validation and the request reaches processEmailRequest. -/
theorem C10_witness :
    validateFormData bodyEdge =
      Except.ok ⟨JSVal.str " ", JSVal.num 42, JSVal.str " ", JSVal.num 7⟩ ∧
    (handlePostRequest envFull wOk store0 ⟨"POST", headersA, some bodyEdge⟩ 0).1 =
      processEmailRequest envFull wOk bodyEdge
        ⟨JSVal.str " ", JSVal.num 42, JSVal.str " ", JSVal.num 7⟩ := by
  have h := C10_truthiness_only bodyEdge ⟨by decide, by decide, by decide, by decide⟩
  exact ⟨h.1, h.2.2.2 envFull wOk store0 ⟨"POST", headersA, some bodyEdge⟩ 0 rfl rfl rfl⟩

/-- C6: with no verification secret configured, validateRecaptcha
short-circuits to success with score 1.0 and performs no API call, and every
submission proceeds to the configuration-check-and-delivery tail of the
pipeline; with a secret configured and a falsy token, it returns failure
with the "Token missing" error and performs no API call. -/
theorem C6_verify_shortcircuit (env : Env) (w : World) (token : JSVal) :
    (truthyOpt env.RECAPTCHA_SECRET_KEY = false →
      validateRecaptcha env w token = (⟨true, some 1, none⟩, []) ∧
      ∀ (body : Body) (formData : FormData),
        processEmailRequest env w body formData =
          ((configCheckAndDeliver env w).1, (configCheckAndDeliver env w).2)) ∧
    (truthyOpt env.RECAPTCHA_SECRET_KEY = true → token.truthy = false →
      validateRecaptcha env w token = (⟨false, none, some "Token missing"⟩, [])) := by
  constructor
  · intro hsec
    constructor
    · simp [validateRecaptcha, hsec]
    · intro body formData
      simp [processEmailRequest, validateRecaptcha, hsec, handleRecaptchaFailure]
      norm_num
  · intro hsec htok
    simp [validateRecaptcha, hsec, htok]

/-- Witness for C6 at concrete environments. -/
theorem C6_witness :
    validateRecaptcha envNoSecret wOk JSVal.undef = (⟨true, some 1, none⟩, []) ∧
    processEmailRequest envNoSecret wOk bodyOk formDataOk =
      ((configCheckAndDeliver envNoSecret wOk).1,
       (configCheckAndDeliver envNoSecret wOk).2) ∧
    validateRecaptcha envFull wOk JSVal.undef =
      (⟨false, none, some "Token missing"⟩, []) := by
  have h1 := C6_verify_shortcircuit envNoSecret wOk JSVal.undef
  have h2 := C6_verify_shortcircuit envFull wOk JSVal.undef
  exact ⟨(h1.1 rfl).1, (h1.1 rfl).2 bodyOk formDataOk, h2.2 rfl rfl⟩

/-- C2 (code behavior at the claimed scenario): a POST admitted by the rate
limiter whose body is missing the message field is answered with status 500
and the body with error "Internal server error" and details
"All fields required" — not with a 400 all-fields-required response as the
claim states — because validateFormData throws and only the outermost
catch in handler converts the throw; no verification or delivery effect is
performed. -/
theorem C2_code_behavior :
    (handler envFull wOk store0 evMissing 0).1 =
      ⟨500, getCorsHeaders,
       Json.obj [("error", Json.str "Internal server error"),
                 ("details", Json.str "All fields required")]⟩ ∧
    (handler envFull wOk store0 evMissing 0).2.1 = ([] : List Effect) ∧
    (handler envFull wOk store0 evMissing 0).1.statusCode ≠ 400 := by
  refine ⟨rfl, rfl, by decide⟩

/-- C3 (code behavior at the claimed scenario): a POST admitted by the rate
limiter whose raw body is not valid JSON is answered with status 500 and
the body with error "Internal server error" and details "Invalid JSON" —
not with a 400 invalid-JSON response as the claim states — because
parseRequestBody throws and only the outermost catch in handler converts
the throw. -/
theorem C3_code_behavior :
    (handler envFull wOk store0 evBadJson 0).1 =
      ⟨500, getCorsHeaders,
       Json.obj [("error", Json.str "Internal server error"),
                 ("details", Json.str "Invalid JSON")]⟩ ∧
    (handler envFull wOk store0 evBadJson 0).2.1 = ([] : List Effect) ∧
    (handler envFull wOk store0 evBadJson 0).1.statusCode ≠ 400 := by
  refine ⟨rfl, rfl, by decide⟩

/-- C1 counterexample: a verification result with success true and score
exactly 0 — which is strictly less than 0.5 — is NOT rejected with the
403 suspicious-activity error: because a JS score of 0 is falsy, the
pipeline proceeds past the score check and (with full configuration and a
working relay) responds 200.  This refutes the claim as stated. -/
theorem C1_counterexample :
    (validateRecaptcha envFull wScore0 bodyOk.recaptchaToken).1 =
      ⟨true, some 0, none⟩ ∧
    (0 : ℚ) < 1 / 2 ∧
    (processEmailRequest envFull wScore0 bodyOk formDataOk).1 =
      Except.ok ⟨200, getCorsHeaders,
        Json.obj [("message", Json.str "Email sent successfully"),
                  ("success", Json.bool true),
                  ("messageId", Json.str "mid-1")]⟩ ∧
    respStatus (processEmailRequest envFull wScore0 bodyOk formDataOk).1 =
      some 200 ∧
    (200 : ℕ) ≠ 403 := by
  refine ⟨by decide, by norm_num, rfl, rfl, by decide⟩

/-- C1 amended: for a request that passed rate limiting and field
validation, with verification result r: success false is rejected 403 with
the verification-failed error regardless of score; success true with a
score that is present, nonzero, and strictly below 0.5 is rejected 403 with
the suspicious-activity error; success true with score at least 0.5,
absent, or exactly 0 (a falsy score) proceeds to the configuration check
and delivery tail. -/
theorem C1_amended (env : Env) (w : World) (body : Body) (formData : FormData) :
    ((validateRecaptcha env w body.recaptchaToken).1.success = false →
      processEmailRequest env w body formData =
        (Except.ok (buildErrorResponse 403 "reCAPTCHA validation failed" none),
         (validateRecaptcha env w body.recaptchaToken).2)) ∧
    (∀ s : ℚ, (validateRecaptcha env w body.recaptchaToken).1.success = true →
      (validateRecaptcha env w body.recaptchaToken).1.score = some s →
      s ≠ 0 → s < 1 / 2 →
      processEmailRequest env w body formData =
        (Except.ok (buildErrorResponse 403 "Suspicious activity detected" none),
         (validateRecaptcha env w body.recaptchaToken).2)) ∧
    ((validateRecaptcha env w body.recaptchaToken).1.success = true →
      ((validateRecaptcha env w body.recaptchaToken).1.score = none ∨
       (validateRecaptcha env w body.recaptchaToken).1.score = some 0 ∨
       ∃ s : ℚ, (validateRecaptcha env w body.recaptchaToken).1.score = some s ∧
         1 / 2 ≤ s) →
      processEmailRequest env w body formData =
        ((configCheckAndDeliver env w).1,
         (validateRecaptcha env w body.recaptchaToken).2 ++
           (configCheckAndDeliver env w).2)) := by
  refine ⟨?_, ?_, ?_⟩
  · intro hfail
    simp [processEmailRequest, hfail]
  · intro s hsucc hscore hne hlt
    have hb : (s == 0) = false := by simp [hne]
    have hlt2 : ¬ ((2 : ℚ)⁻¹ ≤ s) := by
      rw [← one_div]; exact not_le.mpr hlt
    simp [processEmailRequest, hsucc, handleRecaptchaFailure, hscore, hb, hlt2]
  · intro hsucc hsc
    have hnone : handleRecaptchaFailure
        (validateRecaptcha env w body.recaptchaToken).1.score = none := by
      rcases hsc with h0 | h0 | ⟨s, hs, hge⟩
      · simp [handleRecaptchaFailure, h0]
      · simp [handleRecaptchaFailure, h0]
      · rw [hs]
        simp only [handleRecaptchaFailure]
        rcases eq_or_ne s 0 with h0 | h0
        · simp [h0]
        · have hge2 : (2 : ℚ)⁻¹ ≤ s := by rw [← one_div]; exact hge
          simp [h0, hge2]
    simp [processEmailRequest, hsucc, hnone]

/-- Witness for C1 amended: a present, nonzero score of 1/4 is rejected
with the 403 suspicious-activity error. -/
theorem C1_witness :
    processEmailRequest envFull wLowScore bodyOk formDataOk =
      (Except.ok (buildErrorResponse 403 "Suspicious activity detected" none),
       [Effect.recaptchaApiCall]) := by
  have h := (C1_amended envFull wLowScore bodyOk formDataOk).2.1 (1 / 4)
    rfl rfl (by norm_num) (by norm_num)
  exact h

/-- C5: one call to checkRateLimit keeps exactly the stored timestamps with
now - t < 3600000; if at least 5 survive it rejects with allowed false,
remaining 0, resetTime the oldest (first, and least, since reachable stores
are sorted) surviving timestamp plus the window, leaving the store
unchanged; otherwise it appends now under the client id and returns allowed
true, remaining 5 minus the updated count, resetTime now plus the window. -/
theorem C5_check_functional (store : Store) (ip : String) (now : ℤ)
    (hsorted : (store ip).Sorted (· ≤ ·)) :
    cleanOldRequests (store ip) now =
      (store ip).filter (fun t => decide (now - t < RATE_LIMIT_WINDOW)) ∧
    (5 ≤ (cleanOldRequests (store ip) now).length →
      checkRateLimit store ip now =
        (⟨false, 0, (cleanOldRequests (store ip) now).headD 0 + RATE_LIMIT_WINDOW⟩,
         store) ∧
      (cleanOldRequests (store ip) now).headD 0 ∈ cleanOldRequests (store ip) now ∧
      ∀ t ∈ cleanOldRequests (store ip) now,
        (cleanOldRequests (store ip) now).headD 0 ≤ t) ∧
    ((cleanOldRequests (store ip) now).length < 5 →
      checkRateLimit store ip now =
        (⟨true, 5 - (((cleanOldRequests (store ip) now).length : ℤ) + 1),
          now + RATE_LIMIT_WINDOW⟩,
         fun k => if k = ip then cleanOldRequests (store ip) now ++ [now]
                  else store k)) := by
  have hsorted2 : (cleanOldRequests (store ip) now).Sorted (· ≤ ·) :=
    hsorted.filter _
  refine ⟨rfl, ?_, ?_⟩
  · intro hlen
    have hexc : isRateLimitExceeded (cleanOldRequests (store ip) now) = true := by
      simp [isRateLimitExceeded, MAX_REQUESTS_PER_WINDOW]; omega
    have hne : cleanOldRequests (store ip) now ≠ [] := by
      intro h0; rw [h0] at hlen; simp at hlen
    refine ⟨?_, ?_, ?_⟩
    · simp [checkRateLimit, hexc]
    · cases h0 : cleanOldRequests (store ip) now with
      | nil => exact absurd h0 hne
      | cons a t => simp
    · cases h0 : cleanOldRequests (store ip) now with
      | nil => exact absurd h0 hne
      | cons a t =>
        intro x hx
        rw [h0] at hsorted2
        simp only [List.headD_cons]
        rcases List.mem_cons.mp hx with h1 | h1
        · exact le_of_eq h1.symm
        · exact List.rel_of_sorted_cons hsorted2 x h1
  · intro hlen
    have hexc : isRateLimitExceeded (cleanOldRequests (store ip) now) = false := by
      simp [isRateLimitExceeded, MAX_REQUESTS_PER_WINDOW]; omega
    simp only [checkRateLimit, hexc, Bool.false_eq_true, if_false,
      MAX_REQUESTS_PER_WINDOW, Nat.cast_ofNat]
    rfl

/-- A store with five timestamps recorded for one client. -/
def storeFive : Store := fun k => if k = "1.2.3.4" then [0, 1, 2, 3, 4] else []

/-- Witness for C5: with five in-window timestamps recorded, a call at time
5 is rejected with resetTime 0 + window and an untouched store; a call for
a fresh client is granted. -/
theorem C5_witness :
    checkRateLimit storeFive "1.2.3.4" 5 =
      (⟨false, 0, (cleanOldRequests (storeFive "1.2.3.4") 5).headD 0 +
         RATE_LIMIT_WINDOW⟩, storeFive) ∧
    checkRateLimit store0 "9.9.9.9" 5 =
      (⟨true, 5 - (((cleanOldRequests (store0 "9.9.9.9") 5).length : ℤ) + 1),
        5 + RATE_LIMIT_WINDOW⟩,
       fun k => if k = "9.9.9.9" then cleanOldRequests (store0 "9.9.9.9") 5 ++ [5]
                else store0 k) := by
  have h1 := C5_check_functional storeFive "1.2.3.4" 5 (by decide)
  have h2 := C5_check_functional store0 "9.9.9.9" 5 (by decide)
  exact ⟨(h1.2.1 (by decide)).1, h2.2.2 (by decide)⟩

/-- C7: delivery performs transporter.verify, then the notification send,
then the confirmation send, in that order on the one transporter (every
trace of sendEmail is a prefix of that sequence); a fully successful
delivery returns the messageId of the notification (first) send; and when
the confirmation send fails after a successful notification send, sendEmail
fails as a whole and the pipeline responds 500 with the delivery-failure
(internal server error) body, not success. -/
theorem C7_two_sends (w : World) :
    ((sendEmail w).2 = [Effect.smtpVerify] ∨
     (sendEmail w).2 = [Effect.smtpVerify, Effect.smtpSendNotification] ∨
     (sendEmail w).2 = [Effect.smtpVerify, Effect.smtpSendNotification,
                        Effect.smtpSendConfirmation]) ∧
    (∀ mid c, w.verifyOutcome = Except.ok () →
      w.notificationOutcome = Except.ok mid →
      w.confirmationOutcome = Except.ok c →
      sendEmail w = (Except.ok mid,
        [Effect.smtpVerify, Effect.smtpSendNotification,
         Effect.smtpSendConfirmation])) ∧
    (∀ mid e, w.verifyOutcome = Except.ok () →
      w.notificationOutcome = Except.ok mid →
      w.confirmationOutcome = Except.error e →
      (sendEmail w).1 = Except.error e ∧
      ∀ (env : Env) (body : Body) (formData : FormData),
        truthyOpt env.RECAPTCHA_SECRET_KEY = false →
        checkEnvVariables env = Except.ok () →
        (processEmailRequest env w body formData).1 = Except.error e ∧
        ∀ (store : Store) (event : Event) (now : ℤ),
          event.httpMethod = "POST" → event.body = some body →
          validateFormData body = Except.ok formData →
          (checkRateLimit store (getClientIP event.headers) now).1.allowed = true →
          (handler env w store event now).1 =
            buildErrorResponse 500 "Internal server error" (some e)) := by
  refine ⟨?_, ?_, ?_⟩
  · rcases w with ⟨api, v, n, c⟩
    rcases v with e | u
    · simp [sendEmail]
    · rcases n with e | mid
      · simp [sendEmail]
      · rcases c with e | cm <;> simp [sendEmail]
  · intro mid c hv hn hc
    simp [sendEmail, hv, hn, hc]
  · intro mid e hv hn hc
    have hsend : sendEmail w = (Except.error e,
        [Effect.smtpVerify, Effect.smtpSendNotification,
         Effect.smtpSendConfirmation]) := by
      simp [sendEmail, hv, hn, hc]
    refine ⟨by simp [hsend], ?_⟩
    intro env body formData hsec henv
    have hproc : (processEmailRequest env w body formData).1 = Except.error e := by
      simp [processEmailRequest, validateRecaptcha, hsec, handleRecaptchaFailure,
        configCheckAndDeliver, henv, hsend]
      norm_num
    refine ⟨hproc, ?_⟩
    intro store event now hm hb hvd hallow
    have hpost : (handlePostRequest env w store event now).1 =
        (processEmailRequest env w body formData) := by
      simp [handlePostRequest, hallow, hb, parseRequestBody, hvd]
    rcases hpr : processEmailRequest env w body formData with ⟨res, tr⟩
    rw [hpr] at hproc hpost
    simp only at hproc
    subst hproc
    simp [handler, validateHttpMethod, hm]
    rcases hp2 : handlePostRequest env w store event now with ⟨⟨res2, tr2⟩, st2⟩
    rw [hp2] at hpost
    simp only at hpost
    rw [Prod.ext_iff] at hpost
    obtain ⟨h1, _⟩ := hpost
    simp only at h1
    subst h1
    simp

/-- Witness for C7: with a failing confirmation send after a successful
notification send, the handler answers 500 internal server error. -/
theorem C7_witness :
    (sendEmail wConfFail).1 = Except.error "relay closed" ∧
    (handler envNoSecret wConfFail store0 ⟨"POST", headersA, some bodyOk⟩ 0).1 =
      buildErrorResponse 500 "Internal server error" (some "relay closed") := by
  have h := (C7_two_sends wConfFail).2.2 "mid-1" "relay closed" rfl rfl rfl
  refine ⟨h.1, ?_⟩
  have h2 := (h.2 envNoSecret bodyOk formDataOk rfl rfl).2 store0
    ⟨"POST", headersA, some bodyOk⟩ 0 rfl rfl rfl rfl
  exact h2

/-- The reCAPTCHA stage performs at most the one API call. -/
theorem validateRecaptcha_trace (env : Env) (w : World) (token : JSVal) :
    (validateRecaptcha env w token).2 = [] ∨
    (validateRecaptcha env w token).2 = [Effect.recaptchaApiCall] := by
  unfold validateRecaptcha
  rcases h1 : truthyOpt env.RECAPTCHA_SECRET_KEY with _ | _
  · simp
  · rcases h2 : token.truthy with _ | _
    · simp
    · rcases w.apiOutcome with e | d <;> simp

/-- C8: for a request that passes verification, if any of the six required
mail settings is falsy then checkEnvVariables throws an error whose message
names exactly the missing keys (the filtered list contains a key iff it is
required and unset), the pipeline result is that error with no SMTP effect
performed (no relay connection is attempted), and the handler responds
500. -/
theorem C8_config_before_connect (env : Env) (w : World) (body : Body)
    (formData : FormData)
    (hmiss : requiredEnvKeys.filter (fun key => !truthyOpt (envGet env key)) ≠ [])
    (hsucc : (validateRecaptcha env w body.recaptchaToken).1.success = true)
    (hscore : handleRecaptchaFailure
      (validateRecaptcha env w body.recaptchaToken).1.score = none) :
    checkEnvVariables env = Except.error ("Missing env vars: " ++
      String.intercalate ", "
        (requiredEnvKeys.filter (fun key => !truthyOpt (envGet env key)))) ∧
    (∀ key, key ∈ requiredEnvKeys.filter (fun key => !truthyOpt (envGet env key)) ↔
      (key ∈ requiredEnvKeys ∧ truthyOpt (envGet env key) = false)) ∧
    (processEmailRequest env w body formData).1 = Except.error ("Missing env vars: " ++
      String.intercalate ", "
        (requiredEnvKeys.filter (fun key => !truthyOpt (envGet env key)))) ∧
    Effect.smtpVerify ∉ (processEmailRequest env w body formData).2 ∧
    Effect.smtpSendNotification ∉ (processEmailRequest env w body formData).2 ∧
    Effect.smtpSendConfirmation ∉ (processEmailRequest env w body formData).2 ∧
    (∀ (store : Store) (event : Event) (now : ℤ),
      event.httpMethod = "POST" → event.body = some body →
      validateFormData body = Except.ok formData →
      (checkRateLimit store (getClientIP event.headers) now).1.allowed = true →
      (handler env w store event now).1 =
        buildErrorResponse 500 "Internal server error"
          (some ("Missing env vars: " ++ String.intercalate ", "
            (requiredEnvKeys.filter (fun key => !truthyOpt (envGet env key)))))) := by
  have hlen : 0 < (requiredEnvKeys.filter
      (fun key => !truthyOpt (envGet env key))).length :=
    List.length_pos.mpr hmiss
  have henv : checkEnvVariables env = Except.error ("Missing env vars: " ++
      String.intercalate ", "
        (requiredEnvKeys.filter (fun key => !truthyOpt (envGet env key)))) := by
    simp [checkEnvVariables, hlen]
  have hproc : processEmailRequest env w body formData =
      (Except.error ("Missing env vars: " ++ String.intercalate ", "
        (requiredEnvKeys.filter (fun key => !truthyOpt (envGet env key)))),
       (validateRecaptcha env w body.recaptchaToken).2) := by
    simp [processEmailRequest, hsucc, hscore, configCheckAndDeliver, henv]
  have htr : Effect.smtpVerify ∉ (processEmailRequest env w body formData).2 ∧
      Effect.smtpSendNotification ∉ (processEmailRequest env w body formData).2 ∧
      Effect.smtpSendConfirmation ∉ (processEmailRequest env w body formData).2 := by
    rw [hproc]
    rcases validateRecaptcha_trace env w body.recaptchaToken with h | h <;>
      simp [h]
  refine ⟨henv, ?_, by rw [hproc], htr.1, htr.2.1, htr.2.2, ?_⟩
  · intro key
    constructor
    · intro hk
      exact ⟨List.mem_of_mem_filter hk, by
        have := List.of_mem_filter hk; simpa using this⟩
    · intro ⟨hk, hfalse⟩
      exact List.mem_filter.mpr ⟨hk, by simp [hfalse]⟩
  · intro store event now hm hb hvd hallow
    have hpost : (handlePostRequest env w store event now).1 =
        processEmailRequest env w body formData := by
      simp [handlePostRequest, hallow, hb, parseRequestBody, hvd]
    simp only [handler, validateHttpMethod, hm]
    rcases hp2 : handlePostRequest env w store event now with ⟨⟨res2, tr2⟩, st2⟩
    rw [hp2] at hpost
    rw [hproc] at hpost
    rw [Prod.ext_iff] at hpost
    obtain ⟨h1, _⟩ := hpost
    simp only at h1
    subst h1
    simp

/-- Witness for C8: SMTP_HOST unset (and verification unconfigured, which
passes), so the handler answers 500 naming the missing key and performs no
SMTP effect. -/
theorem C8_witness :
    checkEnvVariables envNoHost =
      Except.error ("Missing env vars: " ++ String.intercalate ", "
        (requiredEnvKeys.filter (fun key => !truthyOpt (envGet envNoHost key)))) ∧
    Effect.smtpVerify ∉ (processEmailRequest envNoHost wOk bodyOk formDataOk).2 ∧
    (handler envNoHost wOk store0 ⟨"POST", headersA, some bodyOk⟩ 0).1 =
      buildErrorResponse 500 "Internal server error"
        (some ("Missing env vars: " ++ String.intercalate ", "
          (requiredEnvKeys.filter (fun key => !truthyOpt (envGet envNoHost key))))) := by
  have hsc : (validateRecaptcha envNoHost wOk bodyOk.recaptchaToken).1.score =
      some 1 := rfl
  have hnone : handleRecaptchaFailure
      (validateRecaptcha envNoHost wOk bodyOk.recaptchaToken).1.score = none := by
    rw [hsc]; simp [handleRecaptchaFailure]; norm_num
  have h := C8_config_before_connect envNoHost wOk bodyOk formDataOk
    (by decide) rfl hnone
  exact ⟨h.1, h.2.2.2.1,
    h.2.2.2.2.2.2 store0 ⟨"POST", headersA, some bodyOk⟩ 0 rfl rfl rfl rfl⟩

/-! Rate-limiter runs (for the sliding-window bound of the limiter). -/

/-- The filter predicate of cleanOldRequests: timestamp t is still inside
the window ending at now. -/
def inWindow (now t : ℤ) : Bool := decide (now - t < RATE_LIMIT_WINDOW)

/-- cleanOldRequests is the inWindow filter. -/
theorem cleanOldRequests_eq_filter (l : List ℤ) (now : ℤ) :
    cleanOldRequests l now = l.filter (inWindow now) := rfl

/-- One rate-limiter call in a run: feed (clientId, now) through
checkRateLimit and, as specification bookkeeping, record now under the
client when the call is allowed. -/
def stepCall (st : Store × Store) (c : String × ℤ) : Store × Store :=
  let r := checkRateLimit st.1 c.1 c.2
  (r.2,
   if r.1.allowed then
     fun k => if k = c.1 then st.2 k ++ [c.2] else st.2 k
   else st.2)

/-- Run a sequence of rate-limiter calls from the empty store; the first
component is the final store, the second maps each client to the
timestamps of its allowed calls. -/
def runCalls (calls : List (String × ℤ)) : Store × Store :=
  calls.foldl stepCall (fun _ => [], fun _ => [])

/-- Window membership is antitone in the window end. -/
theorem inWindow_mono {now nw t : ℤ} (h : nw ≤ now) :
    inWindow now t = true → inWindow nw t = true := by
  simp only [inWindow, decide_eq_true_eq]
  intro h2
  omega

/-- Filtering by a later window after an earlier one keeps exactly the
later window. -/
theorem filter_inWindow_filter (l : List ℤ) {nw now : ℤ} (h : nw ≤ now) :
    (l.filter (inWindow nw)).filter (inWindow now) = l.filter (inWindow now) := by
  rw [List.filter_filter]
  apply List.filter_congr
  intro t _
  rcases h2 : inWindow now t with _ | _
  · simp [h2]
  · simp [h2, inWindow_mono h h2]

/-- Invariant of a rate-limiter run after calls up to time tLast: granted
is the per-client log of allowed call times; the store and the log agree on
every window ending no earlier than tLast; and no window — past or
future — holds more than 5 allowed calls. -/
structure RLInv (store granted : Store) (tLast : ℤ) : Prop where
  le_tLast : ∀ ip t, t ∈ granted ip → t ≤ tLast
  sorted : ∀ ip, (granted ip).Sorted (· ≤ ·)
  agree : ∀ ip now, tLast ≤ now →
    (store ip).filter (inWindow now) = (granted ip).filter (inWindow now)
  bound_future : ∀ ip now, tLast ≤ now →
    ((granted ip).filter (inWindow now)).length ≤ 5
  bound_past : ∀ ip t0, t0 ∈ granted ip →
    ((granted ip).filter (fun t => inWindow t0 t && decide (t ≤ t0))).length ≤ 5

/-- The empty store and empty log satisfy the invariant at every time. -/
theorem RLInv_init (t : ℤ) : RLInv (fun _ => []) (fun _ => []) t := by
  refine ⟨?_, ?_, ?_, ?_, ?_⟩ <;> simp [List.Sorted]

/-- The invariant is monotone in the time bound. -/
theorem RLInv.mono {store granted : Store} {t t2 : ℤ}
    (inv : RLInv store granted t) (h : t ≤ t2) : RLInv store granted t2 := by
  refine ⟨?_, inv.sorted, ?_, ?_, inv.bound_past⟩
  · intro ip x hx
    exact le_trans (inv.le_tLast ip x hx) h
  · intro ip now hn
    exact inv.agree ip now (le_trans h hn)
  · intro ip now hn
    exact inv.bound_future ip now (le_trans h hn)

/-- Rewriting helper for the per-key store update. -/
theorem if_self_key {α : Type} (a : String) (x y : α) :
    (if a = a then x else y) = x := by simp

/-- One call at a time no earlier than tLast preserves the invariant. -/
theorem stepCall_inv {store granted : Store} {tLast : ℤ}
    (inv : RLInv store granted tLast) (ip : String) (nw : ℤ) (h : tLast ≤ nw) :
    RLInv (stepCall (store, granted) (ip, nw)).1
      (stepCall (store, granted) (ip, nw)).2 nw := by
  have hagree_nw := inv.agree ip nw h
  by_cases hexc : isRateLimitExceeded (cleanOldRequests (store ip) nw) = true
  · have hstep : stepCall (store, granted) (ip, nw) = (store, granted) := by
      simp [stepCall, checkRateLimit, hexc]
    rw [hstep]
    exact inv.mono h
  · have hexc2 : isRateLimitExceeded (cleanOldRequests (store ip) nw) = false := by
      revert hexc
      cases isRateLimitExceeded (cleanOldRequests (store ip) nw) <;> simp
    have hlen : (cleanOldRequests (store ip) nw).length < 5 := by
      simp [isRateLimitExceeded, MAX_REQUESTS_PER_WINDOW] at hexc2
      omega
    have hglen : ((granted ip).filter (inWindow nw)).length < 5 := by
      rw [cleanOldRequests_eq_filter, hagree_nw] at hlen
      exact hlen
    have hstep : stepCall (store, granted) (ip, nw) =
        (updateRateLimitStore store ip (cleanOldRequests (store ip) nw) nw,
         fun k => if k = ip then granted k ++ [nw] else granted k) := by
      simp [stepCall, checkRateLimit, hexc2]
    rw [hstep]
    refine ⟨?_, ?_, ?_, ?_, ?_⟩
    · intro ip2 t ht
      have ht2 : t ∈ (if ip2 = ip then granted ip2 ++ [nw] else granted ip2) := ht
      by_cases hip : ip2 = ip
      · rw [if_pos hip] at ht2
        rcases List.mem_append.mp ht2 with h3 | h3
        · exact le_trans (inv.le_tLast ip2 t h3) h
        · rw [List.mem_singleton] at h3
          exact le_of_eq h3
      · rw [if_neg hip] at ht2
        exact le_trans (inv.le_tLast ip2 t ht2) h
    · intro ip2
      show List.Sorted (· ≤ ·) (if ip2 = ip then granted ip2 ++ [nw] else granted ip2)
      by_cases hip : ip2 = ip
      · rw [if_pos hip]
        have hpw : List.Pairwise (· ≤ ·) (granted ip2 ++ [nw]) := by
          rw [List.pairwise_append]
          refine ⟨inv.sorted ip2, List.pairwise_singleton _ _, ?_⟩
          intro a ha b hb
          rw [List.mem_singleton] at hb
          subst hb
          exact le_trans (inv.le_tLast ip2 a ha) h
        exact hpw
      · rw [if_neg hip]
        exact inv.sorted ip2
    · intro ip2 now hn
      show ((if ip2 = ip then cleanOldRequests (store ip) nw ++ [nw]
          else store ip2).filter (inWindow now)) =
        ((if ip2 = ip then granted ip2 ++ [nw] else granted ip2).filter (inWindow now))
      by_cases hip : ip2 = ip
      · rw [if_pos hip, if_pos hip, hip,
          List.filter_append, List.filter_append,
          cleanOldRequests_eq_filter, filter_inWindow_filter _ hn,
          inv.agree ip now (le_trans h hn)]
      · rw [if_neg hip, if_neg hip]
        exact inv.agree ip2 now (le_trans h hn)
    · intro ip2 now hn
      show ((if ip2 = ip then granted ip2 ++ [nw] else granted ip2).filter
          (inWindow now)).length ≤ 5
      by_cases hip : ip2 = ip
      · rw [if_pos hip, hip, List.filter_append]
        have h1 : ((granted ip).filter (inWindow now)).length ≤
            ((granted ip).filter (inWindow nw)).length := by
          rw [← filter_inWindow_filter (granted ip) hn]
          exact List.length_filter_le _ _
        have h2 : (([nw] : List ℤ).filter (inWindow now)).length ≤ 1 :=
          List.length_filter_le (inWindow now) [nw]
        rw [List.length_append]
        omega
      · rw [if_neg hip]
        exact inv.bound_future ip2 now (le_trans h hn)
    · intro ip2 t0 ht0
      have ht2 : t0 ∈ (if ip2 = ip then granted ip2 ++ [nw] else granted ip2) := ht0
      show ((if ip2 = ip then granted ip2 ++ [nw] else granted ip2).filter
          (fun t => inWindow t0 t && decide (t ≤ t0))).length ≤ 5
      by_cases hip : ip2 = ip
      · rw [if_pos hip] at ht2
        rw [hip] at ht2
        rw [if_pos hip, hip]
        by_cases ht0nw : t0 = nw
        · rw [List.filter_append]
          have hq1 : (granted ip).filter
              (fun t => inWindow t0 t && decide (t ≤ t0)) =
              (granted ip).filter (inWindow t0) := by
            apply List.filter_congr
            intro t ht
            have hle : t ≤ t0 := by
              rw [ht0nw]
              exact le_trans (inv.le_tLast ip t ht) h
            simp [hle]
          have hq2 : ([nw] : List ℤ).filter
              (fun t => inWindow t0 t && decide (t ≤ t0)) = [nw] := by
            have hw : inWindow t0 nw = true := by
              rw [ht0nw]
              simp [inWindow, RATE_LIMIT_WINDOW]
            have hd : decide (nw ≤ t0) = true := by
              rw [ht0nw]
              simp
            simp [hw, hd]
          rw [hq1, hq2, List.length_append]
          have hb2 : ((granted ip).filter (inWindow t0)).length < 5 := by
            rw [ht0nw]
            exact hglen
          simp only [List.length_singleton]
          omega
        · have ht0g : t0 ∈ granted ip := by
            rcases List.mem_append.mp ht2 with h1 | h1
            · exact h1
            · rw [List.mem_singleton] at h1
              exact absurd h1 ht0nw
          rw [List.filter_append]
          have ht0le : t0 < nw :=
            lt_of_le_of_ne (le_trans (inv.le_tLast ip t0 ht0g) h) ht0nw
          have hq2 : ([nw] : List ℤ).filter
              (fun t => inWindow t0 t && decide (t ≤ t0)) = [] := by
            have hd : decide (nw ≤ t0) = false := by
              simp only [decide_eq_false_iff_not, not_le]
              exact ht0le
            simp [hd]
          rw [hq2, List.append_nil]
          exact inv.bound_past ip t0 ht0g
      · rw [if_neg hip] at ht2
        rw [if_neg hip]
        exact inv.bound_past ip2 t0 ht2

/-- Folding a time-ordered call sequence from an invariant state lands in
an invariant state at the final time. -/
theorem foldl_inv : ∀ (calls : List (String × ℤ)) (store granted : Store)
    (tLast : ℤ), RLInv store granted tLast →
    (∀ c ∈ calls, tLast ≤ c.2) →
    List.Pairwise (fun a b : String × ℤ => a.2 ≤ b.2) calls →
    ∃ tEnd, tLast ≤ tEnd ∧ (∀ c ∈ calls, c.2 ≤ tEnd) ∧
      (tEnd = tLast ∨ ∃ c ∈ calls, tEnd = c.2) ∧
      RLInv (calls.foldl stepCall (store, granted)).1
        (calls.foldl stepCall (store, granted)).2 tEnd := by
  intro calls
  induction calls with
  | nil =>
    intro store granted tLast inv _ _
    exact ⟨tLast, le_refl _, by simp, Or.inl rfl, inv⟩
  | cons c cs ih =>
    intro store granted tLast inv hge hpw
    rcases c with ⟨ip, nw⟩
    have hc : tLast ≤ nw := hge (ip, nw) (List.mem_cons_self _ _)
    have inv2 := stepCall_inv inv ip nw hc
    rw [List.pairwise_cons] at hpw
    obtain ⟨hhead, hpw2⟩ := hpw
    obtain ⟨tEnd, h1, h2, hd, h3⟩ :=
      ih (stepCall (store, granted) (ip, nw)).1
        (stepCall (store, granted) (ip, nw)).2 nw inv2
        (fun c2 hc2 => hhead c2 hc2) hpw2
    refine ⟨tEnd, le_trans hc h1, ?_, ?_, ?_⟩
    · intro c2 hc2
      rcases List.mem_cons.mp hc2 with h4 | h4
      · rw [h4]
        exact h1
      · exact h2 c2 h4
    · rcases hd with h4 | ⟨c2, hc2, h4⟩
      · exact Or.inr ⟨(ip, nw), List.mem_cons_self _ _, h4⟩
      · exact Or.inr ⟨c2, List.mem_cons_of_mem _ hc2, h4⟩
    · simpa using h3

/-- A run over a time-ordered call sequence satisfies the invariant at
every time bounding the whole sequence. -/
theorem runCalls_inv_at (calls : List (String × ℤ))
    (hpw : List.Pairwise (fun a b : String × ℤ => a.2 ≤ b.2) calls)
    (now : ℤ) (hnow : ∀ c ∈ calls, c.2 ≤ now) :
    RLInv (runCalls calls).1 (runCalls calls).2 now := by
  cases calls with
  | nil => exact RLInv_init now
  | cons c cs =>
    rcases c with ⟨ip, nw⟩
    have hge : ∀ c2 ∈ (ip, nw) :: cs, nw ≤ c2.2 := by
      intro c2 hc2
      rcases List.mem_cons.mp hc2 with h4 | h4
      · rw [h4]
      · rw [List.pairwise_cons] at hpw
        exact hpw.1 c2 h4
    obtain ⟨tEnd, h1, h2, hd, h3⟩ :=
      foldl_inv ((ip, nw) :: cs) (fun _ => []) (fun _ => []) nw
        (RLInv_init nw) hge hpw
    have htEnd : tEnd ≤ now := by
      rcases hd with h4 | ⟨c2, hc2, h4⟩
      · rw [h4]
        exact hnow (ip, nw) (List.mem_cons_self _ _)
      · rw [h4]
        exact hnow c2 hc2
    exact h3.mono htEnd

/-- Like runCalls_inv_at, but producing some time bound covering the run. -/
theorem runCalls_inv_exists (calls : List (String × ℤ))
    (hpw : List.Pairwise (fun a b : String × ℤ => a.2 ≤ b.2) calls) :
    ∃ tEnd, (∀ c ∈ calls, c.2 ≤ tEnd) ∧
      RLInv (runCalls calls).1 (runCalls calls).2 tEnd := by
  cases calls with
  | nil => exact ⟨0, by simp, RLInv_init 0⟩
  | cons c cs =>
    rcases c with ⟨ip, nw⟩
    have hge : ∀ c2 ∈ (ip, nw) :: cs, nw ≤ c2.2 := by
      intro c2 hc2
      rcases List.mem_cons.mp hc2 with h4 | h4
      · rw [h4]
      · rw [List.pairwise_cons] at hpw
        exact hpw.1 c2 h4
    obtain ⟨tEnd, _, h2, _, h3⟩ :=
      foldl_inv ((ip, nw) :: cs) (fun _ => []) (fun _ => []) nw
        (RLInv_init nw) hge hpw
    exact ⟨tEnd, h2, h3⟩

/-- Every nonempty list of integers has a maximal element. -/
theorem exists_max_mem : ∀ (l : List ℤ), l ≠ [] → ∃ m, m ∈ l ∧ ∀ t ∈ l, t ≤ m := by
  intro l
  induction l with
  | nil =>
    intro h
    exact absurd rfl h
  | cons a tl ih =>
    intro _
    cases tl with
    | nil =>
      refine ⟨a, by simp, ?_⟩
      intro t ht
      rw [List.mem_singleton] at ht
      rw [ht]
    | cons b tl2 =>
      obtain ⟨m, hm, hmax⟩ := ih (by simp)
      by_cases hab : a ≤ m
      · refine ⟨m, List.mem_cons_of_mem _ hm, ?_⟩
        intro t ht
        rcases List.mem_cons.mp ht with h1 | h1
        · rw [h1]
          exact hab
        · exact hmax t h1
      · refine ⟨a, List.mem_cons_self _ _, ?_⟩
        intro t ht
        rcases List.mem_cons.mp ht with h1 | h1
        · rw [h1]
        · exact le_trans (hmax t h1) (le_of_not_le hab)

/-- C4: over any time-ordered sequence of rate-limiter calls started from
the empty store, every client has at most 5 allowed calls inside any
sliding window of 3600000 ms; and at any later time, a further call is
rejected exactly when 5 recorded timestamps are still inside the window, in
which case the surviving timestamps are precisely the allowed calls in the
window, there are exactly 5 of them, and the rejection resetTime is the
oldest (first and least) of them plus 3600000. -/
theorem C4_sliding_window (calls : List (String × ℤ))
    (hpw : List.Pairwise (fun a b : String × ℤ => a.2 ≤ b.2) calls) :
    (∀ (ip : String) (lo : ℤ),
      ((runCalls calls).2 ip).countP
        (fun t => decide (lo < t) && decide (t ≤ lo + RATE_LIMIT_WINDOW)) ≤ 5) ∧
    (∀ (ip : String) (now : ℤ), (∀ c ∈ calls, c.2 ≤ now) →
      ((checkRateLimit (runCalls calls).1 ip now).1.allowed = false ↔
        5 ≤ (cleanOldRequests ((runCalls calls).1 ip) now).length) ∧
      ((checkRateLimit (runCalls calls).1 ip now).1.allowed = false →
        cleanOldRequests ((runCalls calls).1 ip) now =
          ((runCalls calls).2 ip).filter (inWindow now) ∧
        (cleanOldRequests ((runCalls calls).1 ip) now).length = 5 ∧
        (checkRateLimit (runCalls calls).1 ip now).1.resetTime =
          (cleanOldRequests ((runCalls calls).1 ip) now).headD 0 +
            RATE_LIMIT_WINDOW ∧
        ∀ t ∈ cleanOldRequests ((runCalls calls).1 ip) now,
          (cleanOldRequests ((runCalls calls).1 ip) now).headD 0 ≤ t)) := by
  constructor
  · intro ip lo
    obtain ⟨tEnd, _, inv⟩ := runCalls_inv_exists calls hpw
    rw [List.countP_eq_length_filter]
    cases hf : ((runCalls calls).2 ip).filter
        (fun t => decide (lo < t) && decide (t ≤ lo + RATE_LIMIT_WINDOW)) with
    | nil => simp
    | cons a tl =>
      have hne : ((runCalls calls).2 ip).filter
          (fun t => decide (lo < t) && decide (t ≤ lo + RATE_LIMIT_WINDOW)) ≠ [] := by
        rw [hf]
        simp
      obtain ⟨m, hm, hmax⟩ := exists_max_mem _ hne
      have hmem : m ∈ (runCalls calls).2 ip := (List.mem_filter.mp hm).1
      have hpm : (decide (lo < m) && decide (m ≤ lo + RATE_LIMIT_WINDOW)) = true :=
        (List.mem_filter.mp hm).2
      have hpm2 : lo < m ∧ m ≤ lo + RATE_LIMIT_WINDOW := by
        simpa [Bool.and_eq_true, decide_eq_true_eq] using hpm
      have h5 : ((runCalls calls).2 ip).countP
          (fun t => inWindow m t && decide (t ≤ m)) ≤ 5 := by
        rw [List.countP_eq_length_filter]
        exact inv.bound_past ip m hmem
      rw [← hf, ← List.countP_eq_length_filter]
      refine le_trans (List.countP_mono_left ?_) h5
      intro t ht hpt
      have h1 : lo < t ∧ t ≤ lo + RATE_LIMIT_WINDOW := by
        simpa [Bool.and_eq_true, decide_eq_true_eq] using hpt
      have hle : t ≤ m := hmax t (List.mem_filter.mpr ⟨ht, hpt⟩)
      simp only [Bool.and_eq_true, decide_eq_true_eq, inWindow]
      refine ⟨?_, hle⟩
      obtain ⟨h1a, h1b⟩ := h1
      obtain ⟨h2a, h2b⟩ := hpm2
      simp only [RATE_LIMIT_WINDOW] at h1b h2b ⊢
      omega
  · intro ip now hnow
    have inv := runCalls_inv_at calls hpw now hnow
    have hagree : (cleanOldRequests ((runCalls calls).1 ip) now) =
        ((runCalls calls).2 ip).filter (inWindow now) := by
      rw [cleanOldRequests_eq_filter]
      exact inv.agree ip now le_rfl
    constructor
    · cases hbx : isRateLimitExceeded (cleanOldRequests ((runCalls calls).1 ip) now) with
      | false =>
        have h5 : ¬ (5 ≤ (cleanOldRequests ((runCalls calls).1 ip) now).length) := by
          simpa [isRateLimitExceeded, MAX_REQUESTS_PER_WINDOW] using hbx
        simp [checkRateLimit, hbx, h5]
      | true =>
        have h5 : 5 ≤ (cleanOldRequests ((runCalls calls).1 ip) now).length := by
          simpa [isRateLimitExceeded, MAX_REQUESTS_PER_WINDOW] using hbx
        simp [checkRateLimit, hbx, h5]
    · intro hrej
      have hbx : isRateLimitExceeded
          (cleanOldRequests ((runCalls calls).1 ip) now) = true := by
        cases hbx2 : isRateLimitExceeded
            (cleanOldRequests ((runCalls calls).1 ip) now) with
        | false =>
          exfalso
          have : (checkRateLimit (runCalls calls).1 ip now).1.allowed = true := by
            simp [checkRateLimit, hbx2]
          rw [this] at hrej
          simp at hrej
        | true => rfl
      have h5 : 5 ≤ (cleanOldRequests ((runCalls calls).1 ip) now).length := by
        simpa [isRateLimitExceeded, MAX_REQUESTS_PER_WINDOW] using hbx
      have hle5 : (cleanOldRequests ((runCalls calls).1 ip) now).length ≤ 5 := by
        rw [hagree]
        exact inv.bound_future ip now le_rfl
      have hsorted : (cleanOldRequests ((runCalls calls).1 ip) now).Sorted (· ≤ ·) := by
        rw [hagree]
        exact (inv.sorted ip).filter _
      refine ⟨hagree, by omega, ?_, ?_⟩
      · simp [checkRateLimit, hbx]
      · cases h0 : cleanOldRequests ((runCalls calls).1 ip) now with
        | nil =>
          rw [h0] at h5
          simp at h5
        | cons a t =>
          intro x hx
          rw [h0] at hsorted
          simp only [List.headD_cons]
          rcases List.mem_cons.mp hx with h1 | h1
          · exact le_of_eq h1.symm
          · exact List.rel_of_sorted_cons hsorted x h1

/-- Five calls from one client at times 0 to 4. -/
def callsW : List (String × ℤ) := [("a", 0), ("a", 1), ("a", 2), ("a", 3), ("a", 4)]

/-- Witness for C4: after 5 allowed calls from one client, the window count
is at the bound and a sixth call at time 5 is rejected with resetTime the
oldest recorded timestamp plus the window. -/
theorem C4_witness :
    ((runCalls callsW).2 "a").countP
      (fun t => decide ((-1 : ℤ) < t) && decide (t ≤ -1 + RATE_LIMIT_WINDOW)) ≤ 5 ∧
    (checkRateLimit (runCalls callsW).1 "a" 5).1.allowed = false ∧
    (checkRateLimit (runCalls callsW).1 "a" 5).1.resetTime =
      (cleanOldRequests ((runCalls callsW).1 "a") 5).headD 0 + RATE_LIMIT_WINDOW := by
  have h := C4_sliding_window callsW (by decide)
  have hb := h.2 "a" 5 (by decide)
  have hrej : (checkRateLimit (runCalls callsW).1 "a" 5).1.allowed = false :=
    hb.1.mpr (by decide)
  exact ⟨h.1 "a" (-1), hrej, (hb.2 hrej).2.2.1⟩

end SendEmail
